import Mathlib

/-!
Shallow embedding of the LambdaLAP backend's progress / enrollment /
gamification subsystem — controllers user.controller.ts,
course.controller.ts, challenge.controller.ts, the auth middleware and the
Enrollment / LessonProgress / Challenge models — together with theorems
checking the specification's claims about it.

Persistent records are embedded as plain structures over Nat identifiers and
Nat timestamps; the unique indexes on (userId, courseId) and
(userId, lessonId) let per-pair state be keyed directly by the pair, so the
store slices below carry at most one record per pair.
-/

namespace LambdaLAP

/-- The stats aggregate on User (models/User.ts). -/
structure Stats where
  streakDays : Nat
  totalXp : Nat
  lessonsCompleted : Nat
deriving DecidableEq, Repr

/-- A persisted LessonProgress record for one (user, lesson) pair
(models/LessonProgress.ts). The unique index on (userId, lessonId) means at
most one such record exists per pair, so stores key it by the pair. -/
structure ProgressRecord where
  isCompleted : Bool
  completedAt : Option Nat
deriving DecidableEq, Repr

/-- An Enrollment record (models/Enrollment.ts). -/
structure EnrollmentRec where
  userId : Nat
  courseId : Nat
  enrolledAt : Nat
deriving DecidableEq, Repr

/-- The slice of the persistent store that updateLessonProgress can see for a
fixed authenticated user and lesson: the user's enrollment records, the
(user, lesson) progress record if any, and the user's stats aggregate. -/
structure UserLessonStore where
  enrollments : List EnrollmentRec
  progress : Option ProgressRecord
  stats : Stats
deriving DecidableEq, Repr

/-- Reading completion off an optional record:
existingProgress?.isCompleted || false (user.controller.ts line 286). -/
def wasCompletedOf (p : Option ProgressRecord) : Bool :=
  (p.map (fun r => r.isCompleted)).getD false

/-- The stats increment applied on a fresh completion: totalXp plus 50 and
lessonsCompleted plus 1 (user.controller.ts lines 302-304). -/
def awardStats (s : Stats) : Stats :=
  { s with totalXp := s.totalXp + 50, lessonsCompleted := s.lessonsCompleted + 1 }

/-- Handler body of PUT /users/progress/:lessonId for an authenticated user
(user.controller.ts lines 270-312): read the existing record and capture
wasAlreadyCompleted; upsert the record with isCompleted set to the request's
target value and completedAt set to now when completing, cleared otherwise;
then increment stats iff target is true and wasAlreadyCompleted is false.
Returns the new store and the HTTP status, which is always 200 on this path. -/
def updateLessonProgress (target : Bool) (now : Nat) (s : UserLessonStore) :
    UserLessonStore × Nat :=
  let wasAlreadyCompleted := wasCompletedOf s.progress
  let upserted : UserLessonStore :=
    { s with progress := some ⟨target, if target then some now else none⟩ }
  let final : UserLessonStore :=
    if target && !wasAlreadyCompleted then
      { upserted with stats := awardStats upserted.stats }
    else upserted
  (final, 200)

/-- Claim C1: a progress update adds exactly 50 XP and one completed-lesson
count iff the request marks the lesson complete while the persisted record was
not already completed (a missing record counting as not completed); otherwise
stats are unchanged — in particular marking incomplete never changes stats,
and a second mark-complete applied right after a first changes stats no
further, so two sequential mark-complete calls award once in total. -/
theorem updateLessonProgress_award_iff_transition
    (s : UserLessonStore) (target : Bool) (n1 n2 : Nat) :
    (((updateLessonProgress target n1 s).1.stats.totalXp = s.stats.totalXp + 50 ∧
      (updateLessonProgress target n1 s).1.stats.lessonsCompleted =
        s.stats.lessonsCompleted + 1) ↔
      (target = true ∧ wasCompletedOf s.progress = false)) ∧
    ((target = true ∧ wasCompletedOf s.progress = false) ∨
      (updateLessonProgress target n1 s).1.stats = s.stats) ∧
    (updateLessonProgress false n1 s).1.stats = s.stats ∧
    (updateLessonProgress true n2 (updateLessonProgress true n1 s).1).1.stats =
      (updateLessonProgress true n1 s).1.stats := by
  obtain ⟨e, p, st⟩ := s
  rcases p with _ | ⟨b, t⟩
  · cases target <;> simp [updateLessonProgress, wasCompletedOf, awardStats]
  · cases b <;> cases target <;>
      simp [updateLessonProgress, wasCompletedOf, awardStats]

/-- One in-flight execution of the updateLessonProgress handler, reduced to
its three awaited store accesses (user.controller.ts lines 281-305): the
findOne read at pc 0, the findOneAndUpdate upsert at pc 1, the conditional
stats increment at pc 2; pc 3 means the handler finished. The local register
holds wasAlreadyCompleted once the read has happened. -/
structure HandlerFrame where
  pc : Nat
  wasAlreadyCompleted : Bool
deriving DecidableEq, Repr

/-- A handler that has not yet taken any step. -/
def HandlerFrame.start : HandlerFrame := ⟨0, false⟩

/-- One atomic store access of an in-flight handler. Each await in the
handler is a separate atomic operation against the shared store, so steps of
concurrent requests may interleave between them. -/
def handlerStep (target : Bool) (now : Nat) :
    UserLessonStore × HandlerFrame → UserLessonStore × HandlerFrame
  | (s, f) =>
    if f.pc = 0 then
      (s, ⟨1, wasCompletedOf s.progress⟩)
    else if f.pc = 1 then
      ({ s with progress := some ⟨target, if target then some now else none⟩ },
        ⟨2, f.wasAlreadyCompleted⟩)
    else if f.pc = 2 then
      (if target && !f.wasAlreadyCompleted then
          { s with stats := awardStats s.stats }
        else s,
        ⟨3, f.wasAlreadyCompleted⟩)
    else (s, f)

/-- Two concurrent executions of updateLessonProgress against the same store;
the schedule says which request takes the next atomic step (true = first
request, false = second). -/
def runTwo (t1 t2 : Bool) (n1 n2 : Nat) :
    List Bool → UserLessonStore × HandlerFrame × HandlerFrame →
      UserLessonStore × HandlerFrame × HandlerFrame
  | [], st => st
  | b :: rest, (s, f1, f2) =>
    if b then
      let r := handlerStep t1 n1 (s, f1)
      runTwo t1 t2 n1 n2 rest (r.1, r.2, f2)
    else
      let r := handlerStep t2 n2 (s, f2)
      runTwo t1 t2 n1 n2 rest (r.1, f1, r.2)

/-- A user-lesson store with no enrollment, no progress record and zeroed
stats. -/
def store0 : UserLessonStore := ⟨[], none, ⟨0, 0, 0⟩⟩

/-- Running one handler to completion through the step machine agrees with the
atomic embedding updateLessonProgress, validating the step model. -/
theorem handlerStep_three_eq_updateLessonProgress
    (t : Bool) (n : Nat) (s : UserLessonStore) :
    handlerStep t n (handlerStep t n (handlerStep t n (s, HandlerFrame.start))) =
      ((updateLessonProgress t n s).1, ⟨3, wasCompletedOf s.progress⟩) := by
  obtain ⟨e, p, st⟩ := s
  rcases p with _ | ⟨b, c⟩
  · cases t <;>
      simp [handlerStep, updateLessonProgress, wasCompletedOf, awardStats,
        HandlerFrame.start]
  · cases b <;> cases t <;>
      simp [handlerStep, updateLessonProgress, wasCompletedOf, awardStats,
        HandlerFrame.start]

/-- Claim C2 fails on the code: with no prior progress record, the
interleaving read1 read2 upsert1 upsert2 award1 award2 of two mark-complete
requests for the same user and lesson completes both handlers and awards
twice — totalXp becomes 100 and lessonsCompleted 2, not the single award the
claim requires — while the fully sequential schedule awards once, showing the
double award is a pure race effect. -/
theorem updateLessonProgress_race_double_award :
    (runTwo true true 5 7 [true, false, true, false, true, false]
        (store0, HandlerFrame.start, HandlerFrame.start) =
      (⟨[], some ⟨true, some 7⟩, ⟨0, 100, 2⟩⟩, ⟨3, false⟩, ⟨3, false⟩)) ∧
    (runTwo true true 5 7 [true, true, true, false, false, false]
        (store0, HandlerFrame.start, HandlerFrame.start) =
      (⟨[], some ⟨true, some 7⟩, ⟨0, 50, 1⟩⟩, ⟨3, false⟩, ⟨3, true⟩)) := by
  constructor <;> rfl

/-- Claim C5 fails on the code: starting from a store with no enrollment at
all, a mark-complete progress update still upserts the completion record and
still awards the 50 XP and the completion count, answering 200 — no
enrollment verification happens before the upsert and the award. -/
theorem updateLessonProgress_no_enrollment_cex :
    store0.enrollments = [] ∧
    updateLessonProgress true 3 store0 =
      (⟨[], some ⟨true, some 3⟩, ⟨0, 50, 1⟩⟩, 200) :=
  ⟨rfl, rfl⟩

/-- Claim C5 amended: updateLessonProgress performs no enrollment check — its
progress, stats and HTTP outcome are independent of the enrollments slice of
the store, which it also leaves unchanged, so the upsert and the award proceed
even for a user with no matching enrollment. -/
theorem updateLessonProgress_ignores_enrollments
    (s : UserLessonStore) (t : Bool) (n : Nat) (e : List EnrollmentRec) :
    (updateLessonProgress t n { s with enrollments := e }).1 =
      { (updateLessonProgress t n s).1 with enrollments := e } ∧
    (updateLessonProgress t n { s with enrollments := e }).2 =
      (updateLessonProgress t n s).2 ∧
    (updateLessonProgress t n s).1.enrollments = s.enrollments := by
  obtain ⟨e0, p, st⟩ := s
  rcases p with _ | ⟨b, c⟩
  · cases t <;> simp [updateLessonProgress, wasCompletedOf, awardStats]
  · cases b <;> cases t <;>
      simp [updateLessonProgress, wasCompletedOf, awardStats]

/-- The findOne lookup on Enrollment by userId and courseId
(user.controller.ts lines 220-223): first matching record in the store. -/
def findOneEnrollment (store : List EnrollmentRec) (u c : Nat) :
    Option EnrollmentRec :=
  store.find? (fun e => e.userId == u && e.courseId == c)

/-- Handler body of POST /users/enrollments for an authenticated user u and a
present courseId c (user.controller.ts lines 205-241): 409 Conflict when a
record for the (u, c) pair already exists, otherwise create the record with
enrolledAt set now and answer 201. -/
def enrollInCourse (u c now : Nat) (store : List EnrollmentRec) :
    List EnrollmentRec × Nat :=
  match findOneEnrollment store u c with
  | some _ => (store, 409)
  | none => (store ++ [⟨u, c, now⟩], 201)

/-- Number of enrollment records stored for the (u, c) pair. -/
def countEnrollment (store : List EnrollmentRec) (u c : Nat) : Nat :=
  store.countP (fun e => e.userId == u && e.courseId == c)

/-- A sequence of further enroll calls, given as (user, course, timestamp)
triples, run left to right against the store. -/
def runEnrolls (ops : List (Nat × Nat × Nat)) (store : List EnrollmentRec) :
    List EnrollmentRec :=
  ops.foldl (fun st op => (enrollInCourse op.1 op.2.1 op.2.2 st).1) store

/-- The enrollment lookup misses exactly when the store holds no record for
the pair. -/
theorem findOneEnrollment_eq_none_iff (store : List EnrollmentRec) (u c : Nat) :
    findOneEnrollment store u c = none ↔ countEnrollment store u c = 0 := by
  simp [findOneEnrollment, countEnrollment, List.find?_eq_none,
    List.countP_eq_zero]

/-- Once exactly one record exists for a pair, any enroll call for any pair
keeps it at exactly one. -/
theorem countEnrollment_enrollInCourse (store : List EnrollmentRec)
    (u c u' c' n : Nat) (h : countEnrollment store u c = 1) :
    countEnrollment (enrollInCourse u' c' n store).1 u c = 1 := by
  unfold enrollInCourse
  cases hf : findOneEnrollment store u' c' with
  | some e => simpa using h
  | none =>
    by_cases huc : u' = u ∧ c' = c
    · obtain ⟨hu, hc⟩ := huc
      subst hu; subst hc
      rw [findOneEnrollment_eq_none_iff] at hf
      omega
    · have hx : ((⟨u', c', n⟩ : EnrollmentRec).userId == u &&
          (⟨u', c', n⟩ : EnrollmentRec).courseId == c) = false := by
        rcases Decidable.not_and_iff_or_not.mp huc with h1 | h1 <;>
          simp [h1]
      simp only [countEnrollment, List.countP_append] at h ⊢
      rw [List.countP_cons_of_neg]
      · simpa using h
      · simpa using hx

/-- Running any sequence of enroll calls preserves a pair that already has
exactly one record. -/
theorem countEnrollment_runEnrolls (ops : List (Nat × Nat × Nat))
    (store : List EnrollmentRec) (u c : Nat)
    (h : countEnrollment store u c = 1) :
    countEnrollment (runEnrolls ops store) u c = 1 := by
  induction ops generalizing store with
  | nil => simpa [runEnrolls] using h
  | cons op rest ih =>
    simp only [runEnrolls, List.foldl_cons] at *
    exact ih _ (countEnrollment_enrollInCourse _ u c _ _ _ h)

/-- An enroll call for a pair that already has a record answers 409 and
leaves the store unchanged. -/
theorem enrollInCourse_conflict (store : List EnrollmentRec) (u c n : Nat)
    (h : countEnrollment store u c = 1) :
    enrollInCourse u c n store = (store, 409) := by
  cases hfo : findOneEnrollment store u c with
  | none =>
    rw [findOneEnrollment_eq_none_iff] at hfo
    omega
  | some e => simp [enrollInCourse, hfo]

/-- Claim C3: after a successful enroll for (u, c), the store holds exactly
one record for the pair, it still holds exactly one after any further
sequence of enroll calls, and a further enroll for (u, c) answers 409
Conflict leaving the store unchanged. -/
theorem enrollInCourse_conflict_after_success (store : List EnrollmentRec)
    (u c n n' : Nat) (ops : List (Nat × Nat × Nat))
    (h : (enrollInCourse u c n store).2 = 201) :
    countEnrollment (runEnrolls ops (enrollInCourse u c n store).1) u c = 1 ∧
    enrollInCourse u c n' (runEnrolls ops (enrollInCourse u c n store).1) =
      (runEnrolls ops (enrollInCourse u c n store).1, 409) := by
  have hf : findOneEnrollment store u c = none := by
    cases hfo : findOneEnrollment store u c with
    | none => rfl
    | some e => simp [enrollInCourse, hfo] at h
  have h0 : countEnrollment store u c = 0 :=
    (findOneEnrollment_eq_none_iff store u c).mp hf
  have h1 : countEnrollment (enrollInCourse u c n store).1 u c = 1 := by
    simp only [countEnrollment] at h0
    simp only [enrollInCourse, hf, countEnrollment, List.countP_append]
    simp [h0]
  have h2 := countEnrollment_runEnrolls ops _ u c h1
  exact ⟨h2, enrollInCourse_conflict _ u c n' h2⟩

/-- Witness: the claim C3 theorem applied at a concrete store — first enroll
of user 1 in course 2 on an empty store succeeds, and even after a duplicate
attempt and an unrelated enrollment the pair keeps exactly one record and a
further duplicate attempt answers 409 without change. -/
theorem enrollInCourse_conflict_after_success_witness :
    countEnrollment (runEnrolls [(1, 2, 3), (0, 9, 4)]
        (enrollInCourse 1 2 0 []).1) 1 2 = 1 ∧
    enrollInCourse 1 2 5 (runEnrolls [(1, 2, 3), (0, 9, 4)]
        (enrollInCourse 1 2 0 []).1) =
      (runEnrolls [(1, 2, 3), (0, 9, 4)] (enrollInCourse 1 2 0 []).1, 409) :=
  enrollInCourse_conflict_after_success [] 1 2 0 5 [(1, 2, 3), (0, 9, 4)]
    (by decide)

/-- Per-lesson unlock status in the syllabus view (course.controller.ts). -/
inductive LessonStatus
  | COMPLETED
  | IN_PROGRESS
  | UNLOCKED
  | LOCKED
deriving DecidableEq, Repr

/-- A Lesson record reduced to the fields the handlers read (models/Lesson.ts):
identifier, owning course, the orderIndex sequencing key — an integer with no
uniqueness guarantee — and the title. -/
structure LessonRec where
  id : Nat
  courseId : Nat
  orderIndex : Int
  title : String
deriving DecidableEq, Repr

/-- A Course catalog record reduced to the fields the handlers read. -/
structure CourseRec where
  id : Nat
  title : String
deriving DecidableEq, Repr

/-- The query for a course's lessons in ascending orderIndex order:
Lesson.find filtered by courseId with sort orderIndex 1
(course.controller.ts line 128); insertion sort realizes the ascending
sort. -/
def lessonsOf (db : List LessonRec) (c : Nat) : List LessonRec :=
  List.insertionSort (fun a b => a.orderIndex ≤ b.orderIndex)
    (db.filter (fun l => l.courseId == c))

/-- The status computed for the lesson at position i of the iterated list in
the authenticated branch (course.controller.ts lines 158-167): COMPLETED when
its record reads completed; else IN_PROGRESS or UNLOCKED — by whether a record
exists — when it is first or the preceding entry reads completed; else
LOCKED. -/
def lessonStatus (pm : Nat → Option ProgressRecord) (lessons : List LessonRec)
    (i : Nat) (lesson : LessonRec) : LessonStatus :=
  if wasCompletedOf (pm lesson.id) then .COMPLETED
  else if i == 0 ||
      wasCompletedOf ((lessons.get? (i - 1)).bind (fun l => pm l.id)) then
    if (pm lesson.id).isSome then .IN_PROGRESS else .UNLOCKED
  else .LOCKED

/-- The authenticated branch's lessonsData: the indexed map over the sorted
lesson list (course.controller.ts lines 158-176), keeping id and status. -/
def computeSyllabusAuth (pm : Nat → Option ProgressRecord)
    (lessons : List LessonRec) : List (Nat × LessonStatus) :=
  lessons.enum.map (fun p => (p.2.id, lessonStatus pm lessons p.1 p.2))

/-- The anonymous branch's lessonsData (course.controller.ts lines 177-186):
the entry at index 0 is UNLOCKED and every other entry is LOCKED; the progress
store is not consulted. -/
def computeSyllabusAnon (lessons : List LessonRec) : List (Nat × LessonStatus) :=
  lessons.enum.map
    (fun p => (p.2.id, if p.1 == 0 then LessonStatus.UNLOCKED else .LOCKED))

/-- JS Math.round: nearest integer with halves toward positive infinity. -/
def jsRound (q : ℚ) : ℤ := ⌊q + 1 / 2⌋

/-- completedCount (course.controller.ts lines 136-140): the number of
progress documents of this user that are completed and belong to one of the
course's lesson ids; with at most one record per (user, lesson) that is the
number of distinct lesson ids whose record reads completed. -/
def completedCount (pm : Nat → Option ProgressRecord)
    (lessons : List LessonRec) : Nat :=
  ((lessons.map (fun l => l.id)).dedup.filter
    (fun n => wasCompletedOf (pm n))).length

/-- Result of GET /courses/:courseId/syllabus: 404, or 200 carrying the
optional userProgress percent and the per-lesson statuses. -/
inductive SyllabusResult
  | notFound
  | ok (percent : Option ℤ) (lessons : List (Nat × LessonStatus))
deriving DecidableEq, Repr

/-- Handler body of GET /courses/:courseId/syllabus
(course.controller.ts lines 118-203): 404 when the course is missing; with
req.user set, the completion percent and the sequential statuses; with no
req.user, null userProgress and the anonymous statuses. -/
def getCourseSyllabus (user : Option Nat) (course : Option CourseRec)
    (db : List LessonRec) (pm : Nat → Option ProgressRecord) :
    SyllabusResult :=
  match course with
  | none => .notFound
  | some c =>
    let lessons := lessonsOf db c.id
    match user with
    | some _ =>
      let total := lessons.length
      let pct : ℤ :=
        if 0 < total then
          jsRound ((completedCount pm lessons : ℚ) / total * 100)
        else 0
      .ok (some pct) (computeSyllabusAuth pm lessons)
    | none => .ok none (computeSyllabusAnon lessons)

/-- Outcome of the authenticate middleware: rejection with an HTTP status, or
the request proceeding with req.user set. -/
inductive AuthOutcome
  | reject (status : Nat)
  | proceed (userId : Nat)
deriving DecidableEq, Repr

/-- The authenticate middleware (auth.middleware.ts): a missing Authorization
header, or one without the Bearer scheme, is rejected 401 before any handler
runs; otherwise the token is checked — the verify oracle covers jwt.verify
together with the User.findById existence check — and failure is again 401
while success sets req.user to the token's user. -/
def authenticate (verify : String → Option Nat)
    (authHeader : Option String) : AuthOutcome :=
  match authHeader with
  | none => .reject 401
  | some h =>
    if "Bearer ".data.isPrefixOf h.data then
      match verify ⟨h.data.drop 7⟩ with
      | some uid => .proceed uid
      | none => .reject 401
    else .reject 401

/-- Result of a request through a routed middleware chain. -/
inductive RouteResult
  | middlewareError (status : Nat)
  | handled (r : SyllabusResult)
deriving DecidableEq, Repr

/-- GET /courses/:courseId/syllabus as routed (course.routes.ts line 18): the
authenticate middleware runs before getCourseSyllabus, and when it lets the
request through the handler always sees req.user set. -/
def syllabusRoute (verify : String → Option Nat) (authHeader : Option String)
    (course : Option CourseRec) (db : List LessonRec)
    (pm : Nat → Option ProgressRecord) : RouteResult :=
  match authenticate verify authHeader with
  | .reject s => .middlewareError s
  | .proceed uid => .handled (getCourseSyllabus (some uid) course db pm)

/-- Claim C6 fails on the code: a request for an existing course's syllabus
with no bearer token is rejected 401 by the authenticate middleware in the
route chain, which is not the successful degraded anonymous response the
claim describes. -/
theorem syllabusRoute_unauthenticated_cex :
    syllabusRoute (fun _ => none) none (some ⟨1, "Python"⟩) []
        (fun _ => none) = .middlewareError 401 ∧
    RouteResult.middlewareError 401 ≠
      .handled (.ok none (computeSyllabusAnon [])) :=
  ⟨rfl, by decide⟩

/-- Claim C6 amended: every request to GET /courses/:courseId/syllabus whose
Authorization header is absent or does not begin with the Bearer scheme is rejected 401 by
the authenticate middleware, whatever the course, lessons, progress data and
token verifier; the handler's anonymous degraded branch is unreachable
through this route. -/
theorem syllabusRoute_unauthenticated_rejected (verify : String → Option Nat)
    (hdr : Option String) (course : Option CourseRec) (db : List LessonRec)
    (pm : Nat → Option ProgressRecord)
    (hno : ∀ s, hdr = some s → "Bearer ".data.isPrefixOf s.data = false) :
    syllabusRoute verify hdr course db pm = .middlewareError 401 := by
  cases hdr with
  | none => rfl
  | some s => simp [syllabusRoute, authenticate, hno s rfl]

/-- Witness: the claim C6 amended theorem at a concrete request whose header
carries a non-Bearer scheme. -/
theorem syllabusRoute_unauthenticated_rejected_witness :
    syllabusRoute (fun _ => none) (some "Token abc") (some ⟨1, "Python"⟩) []
        (fun _ => none) = .middlewareError 401 :=
  syllabusRoute_unauthenticated_rejected (fun _ => none) (some "Token abc")
    (some ⟨1, "Python"⟩) [] (fun _ => none)
    (by intro s hs; cases hs; decide)

/-- Entries of the anonymous status map that come from positions 1 and later
are all LOCKED. -/
theorem enumFrom_map_anon_locked (rest : List LessonRec) :
    ∀ n, n ≠ 0 →
      (rest.enumFrom n).map
        (fun p =>
          (p.2.id, if p.1 == 0 then LessonStatus.UNLOCKED else .LOCKED)) =
        rest.map (fun l => (l.id, LessonStatus.LOCKED)) := by
  induction rest with
  | nil => intro n hn; rfl
  | cons x xs ih =>
    intro n hn
    rw [List.enumFrom_cons, List.map_cons, List.map_cons, ih (n + 1) (by omega)]
    have hb : (n == 0) = false := by simpa using hn
    simp [hb]

/-- The anonymous statuses of a nonempty lesson list: the head is UNLOCKED and
every tail entry is LOCKED. -/
theorem computeSyllabusAnon_cons (l : LessonRec) (rest : List LessonRec) :
    computeSyllabusAnon (l :: rest) =
      (l.id, LessonStatus.UNLOCKED) ::
        rest.map (fun x => (x.id, LessonStatus.LOCKED)) := by
  rw [computeSyllabusAnon, List.enum_cons, List.map_cons,
    enumFrom_map_anon_locked rest 1 one_ne_zero]
  simp

/-- Claim C7 fails on the code at the empty lesson list: the anonymous
syllabus of a course with no lessons has no UNLOCKED entry at all, not
exactly one. -/
theorem computeSyllabusAnon_empty_cex :
    getCourseSyllabus none (some ⟨7, "Empty"⟩) [] (fun _ => none) =
      .ok none [] ∧
    List.countP (fun p => p.2 == LessonStatus.UNLOCKED)
      (computeSyllabusAnon []) = 0 :=
  ⟨rfl, rfl⟩

/-- Claim C7 amended: for every nonempty lesson list the anonymous syllabus
computation yields exactly one UNLOCKED entry — the one at index 0 — and
LOCKED for every other entry, and the anonymous handler output is independent
of the progress data; for the empty lesson list the output is empty. -/
theorem computeSyllabusAnon_one_unlocked (ls : List LessonRec)
    (course : Option CourseRec) (db : List LessonRec)
    (pm pm' : Nat → Option ProgressRecord) (hne : ls ≠ []) :
    List.countP (fun p => p.2 == LessonStatus.UNLOCKED)
        (computeSyllabusAnon ls) = 1 ∧
    (∀ j (hj : j < (computeSyllabusAnon ls).length), 0 < j →
      ((computeSyllabusAnon ls).get ⟨j, hj⟩).2 = LessonStatus.LOCKED) ∧
    (∀ h0 : 0 < (computeSyllabusAnon ls).length,
      ((computeSyllabusAnon ls).get ⟨0, h0⟩).2 = LessonStatus.UNLOCKED) ∧
    getCourseSyllabus none course db pm =
      getCourseSyllabus none course db pm' := by
  rcases ls with _ | ⟨l, rest⟩
  · exact absurd rfl hne
  · rw [computeSyllabusAnon_cons]
    refine ⟨?_, ?_, ?_, ?_⟩
    · simp [List.countP_cons, List.countP_map, Function.comp]
    · intro j hj hpos
      cases j with
      | zero => omega
      | succ k =>
        simp [List.get_eq_getElem, List.getElem_map]
    · intro h0
      rfl
    · cases course <;> rfl

/-- Witness: the claim C7 amended theorem at a one-lesson course. -/
theorem computeSyllabusAnon_one_unlocked_witness :
    List.countP (fun p => p.2 == LessonStatus.UNLOCKED)
        (computeSyllabusAnon [⟨1, 1, 1, "Vars"⟩]) = 1 ∧
    (∀ j (hj : j < (computeSyllabusAnon [⟨1, 1, 1, "Vars"⟩]).length), 0 < j →
      ((computeSyllabusAnon [⟨1, 1, 1, "Vars"⟩]).get ⟨j, hj⟩).2 =
        LessonStatus.LOCKED) ∧
    (∀ h0 : 0 < (computeSyllabusAnon [⟨1, 1, 1, "Vars"⟩]).length,
      ((computeSyllabusAnon [⟨1, 1, 1, "Vars"⟩]).get ⟨0, h0⟩).2 =
        LessonStatus.UNLOCKED) ∧
    getCourseSyllabus none (some ⟨1, "Python"⟩) [⟨1, 1, 1, "Vars"⟩]
        (fun _ => some ⟨true, some 9⟩) =
      getCourseSyllabus none (some ⟨1, "Python"⟩) [⟨1, 1, 1, "Vars"⟩]
        (fun _ => none) :=
  computeSyllabusAnon_one_unlocked [⟨1, 1, 1, "Vars"⟩] (some ⟨1, "Python"⟩)
    [⟨1, 1, 1, "Vars"⟩] (fun _ => some ⟨true, some 9⟩) (fun _ => none)
    (by decide)

/-- The specification's reading of progress: the lesson's record exists and
isCompleted is true. -/
def hasCompletedRecord (pm : Nat → Option ProgressRecord) (l : LessonRec) :
    Bool :=
  match pm l.id with
  | some r => r.isCompleted
  | none => false

/-- The code's optional-chain read agrees with the record-existence reading. -/
theorem wasCompletedOf_eq_hasCompletedRecord (pm : Nat → Option ProgressRecord)
    (l : LessonRec) : wasCompletedOf (pm l.id) = hasCompletedRecord pm l := by
  cases hp : pm l.id <;> simp [wasCompletedOf, hasCompletedRecord, hp]

/-- The status the code computes at a valid position written in the
specification's terms: completed record, or first-or-predecessor-completed
with started-or-not, or locked. -/
theorem lessonStatus_spec (pm : Nat → Option ProgressRecord)
    (lessons : List LessonRec) (i : Nat) (h : i < lessons.length)
    (hl : i - 1 < lessons.length) :
    lessonStatus pm lessons i (lessons.get ⟨i, h⟩) =
      (if hasCompletedRecord pm (lessons.get ⟨i, h⟩) = true then
        LessonStatus.COMPLETED
      else if i = 0 ∨
          hasCompletedRecord pm (lessons.get ⟨i - 1, hl⟩) = true then
        if (pm (lessons.get ⟨i, h⟩).id).isSome then .IN_PROGRESS else .UNLOCKED
      else .LOCKED) := by
  have hget : lessons.get? (i - 1) = some (lessons.get ⟨i - 1, hl⟩) :=
    List.get?_eq_get hl
  unfold lessonStatus
  rw [hget, Option.some_bind, wasCompletedOf_eq_hasCompletedRecord,
    wasCompletedOf_eq_hasCompletedRecord]
  by_cases hc : hasCompletedRecord pm (lessons.get ⟨i, h⟩) = true
  · simp [hc]
  · by_cases h0 : i = 0
    · subst h0
      simp [hc]
    · have hb : (i == 0) = false := by simpa using h0
      cases hp : hasCompletedRecord pm (lessons.get ⟨i - 1, hl⟩) <;>
        simp [hc, hb, h0, hp]

/-- Claim C4: in the authenticated syllabus the iterated lesson list is the
course's lessons in ascending orderIndex order, and the entry at position i
carries the i-th lesson's id with status COMPLETED when its progress record
reads completed; else IN_PROGRESS or UNLOCKED — by whether a record exists for
this lesson — when i is 0 or the immediately preceding lesson's record reads
completed; else LOCKED. -/
theorem computeSyllabusAuth_status_rule (pm : Nat → Option ProgressRecord)
    (db : List LessonRec) (c : Nat) (i : Nat)
    (h : i < (lessonsOf db c).length)
    (h2 : i < (computeSyllabusAuth pm (lessonsOf db c)).length) :
    List.Sorted (fun a b => a.orderIndex ≤ b.orderIndex) (lessonsOf db c) ∧
    (computeSyllabusAuth pm (lessonsOf db c)).get ⟨i, h2⟩ =
      (((lessonsOf db c).get ⟨i, h⟩).id,
        if hasCompletedRecord pm ((lessonsOf db c).get ⟨i, h⟩) = true then
          LessonStatus.COMPLETED
        else if i = 0 ∨ hasCompletedRecord pm
            ((lessonsOf db c).get ⟨i - 1, by omega⟩) = true then
          if (pm ((lessonsOf db c).get ⟨i, h⟩).id).isSome then .IN_PROGRESS
          else .UNLOCKED
        else .LOCKED) := by
  constructor
  · haveI : IsTotal LessonRec (fun a b => a.orderIndex ≤ b.orderIndex) :=
      ⟨fun a b => le_total a.orderIndex b.orderIndex⟩
    haveI : IsTrans LessonRec (fun a b => a.orderIndex ≤ b.orderIndex) :=
      ⟨fun a b c hab hbc => le_trans hab hbc⟩
    exact List.sorted_insertionSort _ _
  · have hs := lessonStatus_spec pm (lessonsOf db c) i h (by omega)
    have hmap : (computeSyllabusAuth pm (lessonsOf db c)).get ⟨i, h2⟩ =
        (((lessonsOf db c).get ⟨i, h⟩).id,
          lessonStatus pm (lessonsOf db c) i ((lessonsOf db c).get ⟨i, h⟩)) := by
      simp [computeSyllabusAuth, List.get_eq_getElem, List.getElem_map,
        List.getElem_enum]
    rw [hmap, hs]

/-- Demo content for witnesses: the three-lesson Python course of the
specification's scenario, lessons ordered 1, 2, 3. -/
def demoDb : List LessonRec :=
  [⟨1, 1, 1, "Variables"⟩, ⟨2, 1, 2, "Math"⟩, ⟨3, 1, 3, "Loops"⟩]

/-- Demo progress: lesson 1 completed, nothing else started. -/
def demoPm : Nat → Option ProgressRecord :=
  fun n => if n == 1 then some ⟨true, some 4⟩ else none

/-- Witness: the claim C4 theorem at the demo course, position 1 — lesson 2
is UNLOCKED because lesson 1 is completed and lesson 2 has no record. -/
theorem computeSyllabusAuth_status_rule_witness :
    (computeSyllabusAuth demoPm (lessonsOf demoDb 1)).get ⟨1, by decide⟩ =
      (2, LessonStatus.UNLOCKED) := by
  have h := computeSyllabusAuth_status_rule demoPm demoDb 1 1 (by decide)
    (by decide)
  rw [h.2]
  decide

/-- The code's duplicate-free completed count agrees with the specification's
count of completed lessons whenever the lesson ids are distinct. -/
theorem completedCount_eq_filter_length (pm : Nat → Option ProgressRecord)
    (L : List LessonRec) (hnd : (L.map (fun l => l.id)).Nodup) :
    completedCount pm L =
      (L.filter (fun l => hasCompletedRecord pm l)).length := by
  unfold completedCount
  rw [List.dedup_eq_self.mpr hnd, List.filter_map, List.length_map]
  congr 1
  apply List.filter_congr
  intro x _
  exact wasCompletedOf_eq_hasCompletedRecord pm x

/-- Claim C8: an authenticated syllabus answers percent equal to JS
Math.round of 100 times the number of the course's lessons whose record reads
completed divided by the total lesson count, and 0 when the course has no
lessons. -/
theorem getCourseSyllabus_percent_rule (u : Nat) (c : CourseRec)
    (db : List LessonRec) (pm : Nat → Option ProgressRecord)
    (hnd : ((lessonsOf db c.id).map (fun l => l.id)).Nodup) :
    getCourseSyllabus (some u) (some c) db pm =
      .ok (some (if (lessonsOf db c.id).length = 0 then 0 else
          jsRound (100 * (((lessonsOf db c.id).filter
              (fun l => hasCompletedRecord pm l)).length : ℚ) /
            ((lessonsOf db c.id).length : ℚ))))
        (computeSyllabusAuth pm (lessonsOf db c.id)) := by
  have hred : getCourseSyllabus (some u) (some c) db pm =
      .ok (some (if 0 < (lessonsOf db c.id).length then
          jsRound ((completedCount pm (lessonsOf db c.id) : ℚ) /
            ((lessonsOf db c.id).length : ℚ) * 100)
        else 0)) (computeSyllabusAuth pm (lessonsOf db c.id)) := rfl
  rw [hred, completedCount_eq_filter_length pm _ hnd]
  by_cases ht : (lessonsOf db c.id).length = 0
  · simp [ht]
  · have h1 : 0 < (lessonsOf db c.id).length := Nat.pos_of_ne_zero ht
    rw [if_pos h1, if_neg ht]
    have harg : (((lessonsOf db c.id).filter
          (fun l => hasCompletedRecord pm l)).length : ℚ) /
          ((lessonsOf db c.id).length : ℚ) * 100 =
        100 * (((lessonsOf db c.id).filter
          (fun l => hasCompletedRecord pm l)).length : ℚ) /
          ((lessonsOf db c.id).length : ℚ) := by
      ring
    rw [harg]

/-- Witness: the claim C8 theorem at the demo course — one of three lessons
completed gives percent 33. -/
theorem getCourseSyllabus_percent_rule_witness :
    getCourseSyllabus (some 5) (some ⟨1, "Python"⟩) demoDb demoPm =
      .ok (some 33) (computeSyllabusAuth demoPm (lessonsOf demoDb 1)) := by
  have h := getCourseSyllabus_percent_rule 5 ⟨1, "Python"⟩ demoDb demoPm
    (by decide)
  rw [h]
  norm_num [lessonsOf, demoDb, demoPm, jsRound, hasCompletedRecord,
    List.insertionSort, List.orderedInsert]

/-- A dashboard enrollment as getDashboard reads it: the course link and the
lastAccessedAt recency key its sort uses. -/
structure DashEnrollment where
  courseId : Nat
  lastAccessedAt : Nat
deriving DecidableEq, Repr

/-- The quick-resume payload of the dashboard response. -/
structure QuickResume where
  courseTitle : String
  lessonId : Nat
  lessonTitle : String
deriving DecidableEq, Repr

/-- Enrollment.find for the user sorted by lastAccessedAt descending with
limit 1 (user.controller.ts lines 58-61): the head of the descending sort. -/
def mostRecentEnrollment (es : List DashEnrollment) : Option DashEnrollment :=
  (List.insertionSort (fun a b => b.lastAccessedAt ≤ a.lastAccessedAt) es).head?

/-- The quickResume computation of getDashboard (user.controller.ts lines
57-87): none without an enrollment or when the populated course is missing;
otherwise the first lesson of the selected course, in orderIndex order, whose
record is missing or uncompleted. -/
def quickResumeOf (courses : List CourseRec) (db : List LessonRec)
    (enrollments : List DashEnrollment) (pm : Nat → Option ProgressRecord) :
    Option QuickResume :=
  match mostRecentEnrollment enrollments with
  | none => none
  | some e =>
    match courses.find? (fun c => c.id == e.courseId) with
    | none => none
    | some course =>
      ((lessonsOf db course.id).find?
          (fun l => !wasCompletedOf (pm l.id))).map
        (fun l => ⟨course.title, l.id, l.title⟩)

/-- Handler body of GET /users/dashboard for an existing authenticated user
(user.controller.ts lines 44-107): 200 with the stats snapshot verbatim and
the optional quickResume. -/
def getDashboard (courses : List CourseRec) (db : List LessonRec)
    (enrollments : List DashEnrollment) (pm : Nat → Option ProgressRecord)
    (stats : Stats) : Nat × Option QuickResume × Stats :=
  (200, quickResumeOf courses db enrollments pm, stats)

/-- Decomposition of a successful find?: the hit satisfies the predicate and
every earlier element fails it. -/
theorem find?_split {α : Type} (p : α → Bool) (l : List α) (x : α)
    (h : l.find? p = some x) :
    p x = true ∧
      ∃ pre post, l = pre ++ x :: post ∧ ∀ y ∈ pre, p y = false := by
  induction l with
  | nil => simp at h
  | cons a t ih =>
    by_cases hp : p a
    · rw [List.find?_cons_of_pos _ hp] at h
      cases h
      exact ⟨hp, [], t, rfl, by simp⟩
    · rw [List.find?_cons_of_neg _ (by simpa using hp)] at h
      obtain ⟨hx, pre, post, hsplit, hpre⟩ := ih h
      refine ⟨hx, a :: pre, post, by rw [hsplit, List.cons_append], ?_⟩
      intro y hy
      rcases List.mem_cons.mp hy with rfl | hy2
      · simpa using hp
      · exact hpre y hy2

/-- The head of the descending sort is an enrollment with maximal
lastAccessedAt. -/
theorem mostRecentEnrollment_maximal (es : List DashEnrollment)
    (e : DashEnrollment) (h : mostRecentEnrollment es = some e) :
    e ∈ es ∧ ∀ x ∈ es, x.lastAccessedAt ≤ e.lastAccessedAt := by
  haveI : IsTotal DashEnrollment
      (fun a b => b.lastAccessedAt ≤ a.lastAccessedAt) :=
    ⟨fun a b => le_total b.lastAccessedAt a.lastAccessedAt⟩
  haveI : IsTrans DashEnrollment
      (fun a b => b.lastAccessedAt ≤ a.lastAccessedAt) :=
    ⟨fun a b c hab hbc => le_trans hbc hab⟩
  unfold mostRecentEnrollment at h
  cases hs : List.insertionSort
      (fun a b => b.lastAccessedAt ≤ a.lastAccessedAt) es with
  | nil => rw [hs] at h; simp at h
  | cons a t =>
    rw [hs] at h
    simp only [List.head?_cons, Option.some_inj] at h
    subst h
    have hperm := List.perm_insertionSort
      (fun a b => b.lastAccessedAt ≤ a.lastAccessedAt) es
    rw [hs] at hperm
    have hsorted := List.sorted_insertionSort
      (fun a b => b.lastAccessedAt ≤ a.lastAccessedAt) es
    rw [hs] at hsorted
    constructor
    · exact hperm.subset (List.mem_cons_self _ _)
    · intro x hx
      rcases List.mem_cons.mp (hperm.symm.subset hx) with rfl | hx2
      · exact le_refl _
      · exact List.rel_of_sorted_cons hsorted x hx2

/-- Claim C9: a dashboard request answers 200 with the stats snapshot
verbatim; with zero enrollments quickResume is null and the request still
succeeds; and any returned quickResume comes from an enrollment of maximal
lastAccessedAt, whose course's lessons — scanned in ascending orderIndex
order — read completed strictly before the returned lesson, the returned
lesson being the first with no record or an uncompleted one. -/
theorem getDashboard_quick_resume (courses : List CourseRec)
    (db : List LessonRec) (enrollments : List DashEnrollment)
    (pm : Nat → Option ProgressRecord) (stats : Stats) :
    (getDashboard courses db enrollments pm stats).1 = 200 ∧
    (getDashboard courses db enrollments pm stats).2.2 = stats ∧
    (enrollments = [] →
      (getDashboard courses db enrollments pm stats).2.1 = none) ∧
    (∀ q, (getDashboard courses db enrollments pm stats).2.1 = some q →
      ∃ e course pre l post,
        mostRecentEnrollment enrollments = some e ∧ e ∈ enrollments ∧
        (∀ x ∈ enrollments, x.lastAccessedAt ≤ e.lastAccessedAt) ∧
        courses.find? (fun c => c.id == e.courseId) = some course ∧
        List.Sorted (fun a b => a.orderIndex ≤ b.orderIndex)
          (lessonsOf db course.id) ∧
        lessonsOf db course.id = pre ++ l :: post ∧
        (∀ y ∈ pre, wasCompletedOf (pm y.id) = true) ∧
        wasCompletedOf (pm l.id) = false ∧
        q = ⟨course.title, l.id, l.title⟩) := by
  refine ⟨rfl, rfl, ?_, ?_⟩
  · intro he
    subst he
    rfl
  · intro q hq
    have hq2 : quickResumeOf courses db enrollments pm = some q := hq
    unfold quickResumeOf at hq2
    split at hq2
    next => simp at hq2
    next e hm =>
      split at hq2
      next => simp at hq2
      next course hc =>
        simp only [Option.map_eq_some'] at hq2
        obtain ⟨l, hfind, hql⟩ := hq2
        obtain ⟨hl, pre, post, hsplit, hpre⟩ := find?_split _ _ _ hfind
        obtain ⟨hmem, hmax⟩ := mostRecentEnrollment_maximal enrollments e hm
        haveI : IsTotal LessonRec (fun a b => a.orderIndex ≤ b.orderIndex) :=
          ⟨fun a b => le_total a.orderIndex b.orderIndex⟩
        haveI : IsTrans LessonRec (fun a b => a.orderIndex ≤ b.orderIndex) :=
          ⟨fun a b c hab hbc => le_trans hab hbc⟩
        refine ⟨e, course, pre, l, post, hm, hmem, hmax, hc,
          List.sorted_insertionSort _ _, hsplit, ?_, ?_, hql.symm⟩
        · intro y hy
          have hv := hpre y hy
          simpa using hv
        · simpa using hl

/-- Witness: the claim C9 theorem at a concrete dashboard — one enrollment in
the demo course with lesson 1 completed resumes at lesson 2. -/
theorem getDashboard_quick_resume_witness :
    ∃ (e : DashEnrollment) (course : CourseRec) (pre : List LessonRec)
      (l : LessonRec) (post : List LessonRec),
      mostRecentEnrollment [⟨1, 10⟩] = some e ∧
      e ∈ ([⟨1, 10⟩] : List DashEnrollment) ∧
      (∀ x ∈ ([⟨1, 10⟩] : List DashEnrollment),
        x.lastAccessedAt ≤ e.lastAccessedAt) ∧
      List.find? (fun c => c.id == e.courseId)
        ([⟨1, "Python"⟩] : List CourseRec) = some course ∧
      List.Sorted (fun a b => a.orderIndex ≤ b.orderIndex)
        (lessonsOf demoDb course.id) ∧
      lessonsOf demoDb course.id = pre ++ l :: post ∧
      (∀ y ∈ pre, wasCompletedOf (demoPm y.id) = true) ∧
      wasCompletedOf (demoPm l.id) = false ∧
      (⟨"Python", 2, "Math"⟩ : QuickResume) = ⟨course.title, l.id, l.title⟩ :=
  (getDashboard_quick_resume [⟨1, "Python"⟩] demoDb [⟨1, 10⟩] demoPm
      ⟨3, 1250, 12⟩).2.2.2 ⟨"Python", 2, "Math"⟩ (by decide)

/-- User roles (models/User.ts). -/
inductive Role
  | STUDENT
  | INSTRUCTOR
  | ADMIN
deriving DecidableEq, Repr

/-- The authenticated identity the auth middleware attaches to a request. -/
structure AuthUser where
  id : Nat
  role : Role
deriving DecidableEq, Repr

/-- A challenge test case (models/Challenge.ts): payloads plus the hidden
tag. -/
structure TestCase where
  input : String
  expectedOutput : String
  isHidden : Bool
deriving DecidableEq, Repr

/-- A Challenge record reduced to the fields getChallengeById returns. -/
structure ChallengeRec where
  id : Nat
  lessonId : Nat
  title : String
  testCases : List TestCase
deriving DecidableEq, Repr

/-- The role check of getChallengeById (challenge controller lines 197-198):
a requester counts as privileged when authenticated with role ADMIN or
INSTRUCTOR. -/
def isAdminOrInstructor (user : Option AuthUser) : Bool :=
  match user with
  | some u => u.role == .ADMIN || u.role == .INSTRUCTOR
  | none => false

/-- Handler body of GET /challenges/:challengeId (challenge controller lines
185-217, a public route): 404 when the challenge is missing; otherwise the
record with its test cases filtered to the non-hidden ones unless the
requester is ADMIN or INSTRUCTOR. -/
def getChallengeById (user : Option AuthUser)
    (challenge : Option ChallengeRec) :
    Except Nat (Nat × Nat × String × List TestCase) :=
  match challenge with
  | none => .error 404
  | some ch =>
    .ok (ch.id, ch.lessonId, ch.title,
      if isAdminOrInstructor user then ch.testCases
      else ch.testCases.filter (fun tc => !tc.isHidden))

/-- Claim C10: a requester who is not an authenticated ADMIN or INSTRUCTOR —
anonymous callers and STUDENT users are never such — receives exactly the
challenge's non-hidden test cases in their stored order: the returned list is
the filter keeping order as a sublist, every returned case is non-hidden, and
every non-hidden stored case is returned; ADMIN and INSTRUCTOR requesters
receive the full list. -/
theorem getChallengeById_hidden_filter (user : Option AuthUser)
    (ch : ChallengeRec) :
    (isAdminOrInstructor user = false →
      getChallengeById user (some ch) =
        .ok (ch.id, ch.lessonId, ch.title,
          ch.testCases.filter (fun tc => !tc.isHidden)) ∧
      (ch.testCases.filter (fun tc => !tc.isHidden)).Sublist ch.testCases ∧
      (∀ tc ∈ ch.testCases.filter (fun tc => !tc.isHidden),
        tc.isHidden = false) ∧
      (∀ tc ∈ ch.testCases, tc.isHidden = false →
        tc ∈ ch.testCases.filter (fun tc => !tc.isHidden))) ∧
    (isAdminOrInstructor user = true →
      getChallengeById user (some ch) =
        .ok (ch.id, ch.lessonId, ch.title, ch.testCases)) ∧
    isAdminOrInstructor none = false ∧
    (∀ i, isAdminOrInstructor (some ⟨i, Role.STUDENT⟩) = false) := by
  refine ⟨?_, ?_, rfl, fun i => rfl⟩
  · intro hrole
    refine ⟨by simp [getChallengeById, hrole], List.filter_sublist _, ?_, ?_⟩
    · intro tc htc
      have := (List.mem_filter.mp htc).2
      simpa using this
    · intro tc htc hvis
      exact List.mem_filter.mpr ⟨htc, by simpa using hvis⟩
  · intro hrole
    simp [getChallengeById, hrole]

/-- Witness: the claim C10 theorem applied for an anonymous requester against
a challenge holding one visible and one hidden test case, discharging the
non-privileged hypothesis — the hidden case is filtered out. -/
theorem getChallengeById_hidden_filter_witness :
    getChallengeById none
        (some ⟨4, 2, "Area", [⟨"5 2", "10", false⟩, ⟨"10 10", "100", true⟩]⟩) =
      .ok (4, 2, "Area",
        List.filter (fun tc => !tc.isHidden)
          [⟨"5 2", "10", false⟩, ⟨"10 10", "100", true⟩]) :=
  ((getChallengeById_hidden_filter none
      ⟨4, 2, "Area", [⟨"5 2", "10", false⟩, ⟨"10 10", "100", true⟩]⟩).1
    (by decide)).1

end LambdaLAP
